import Mathlib

/-!
Verification development for the sajari/storage Go package.

The package abstracts file storage backends (Google Cloud Storage in
cloudstorage.go, AWS S3 in s3.go — the repository carries two revisions of
the S3 driver, a current one and a legacy one) behind an FS interface
(Open/Create/Delete/Walk), plus a multi-tier read-through cache wrapper.
The cache wrapper's source file is not part of the sources given here, so
it is modelled from the specification (spec.md §4.2, §7); the backend
drivers are embedded directly from cloudstorage.go and s3.go.

Bytes are modelled as lists of naturals, timestamps as naturals with 0 as
the zero (absent) time, and Go errors as explicit inductive values so that
propagated-unchanged versus wrapped versus translated-to-NotFound is
visible in the embedding.
-/

/-- An error produced by a vendor SDK call, carrying the attributes the
storage package inspects: `notExist` is the result of blob.IsNotExist on
it, `awsCode` is its awserr.Error code (none when it is not an awserr),
and `msg` its message. -/
structure GoErr where
  notExist : Bool
  awsCode : Option String
  msg : String
  deriving DecidableEq, Repr

/-- An error value of the storage package, as seen by a caller.
`notExistError p` embeds the package's notExistError with Path field p;
`goErr e` embeds an underlying SDK error returned to the caller unchanged;
`errorf m e` embeds a Go fmt.Errorf wrapping of cause e with message m;
`errMsg m` embeds a Go fmt.Errorf with no cause. -/
inductive StorageErr where
  | notExistError (path : String)
  | goErr (e : GoErr)
  | errorf (msg : String) (e : GoErr)
  | errMsg (msg : String)
  deriving DecidableEq, Repr

/-- A stored object in a backend: its content bytes and its
last-modification time (0 meaning the zero/absent time). -/
structure Obj where
  content : List Nat
  modTime : Nat
  deriving DecidableEq, Repr

/-- The package's File struct: an opened readable resource, with its
ReadCloser contents, logical Name, Size and ModTime fields. -/
structure File where
  content : List Nat
  name : String
  size : Nat
  modTime : Nat
  deriving DecidableEq, Repr

/-! ## Cache wrapper, modelled from the spec (§4.2, §7)

The cache wrapper's source file is not among the given sources; only the
backend drivers are. The definitions below are therefore modelled from
the specification's algorithm for the wrapper's Open. -/

/-- Modelled from the spec: one tier of the cache chain (a Store handle,
spec §3). The wrapper's source is missing from the given files, so a tier
is modelled by its observable behaviour: the objects it stores, whether
its open fails with a transport error (`failOpen = some m`), and whether
writes to it fail (`failWrite`), for exercising the backfill-failure
policy of spec §4.2.5. -/
structure Tier where
  objects : List (String × List Nat)
  failOpen : Option String
  failWrite : Bool
  deriving DecidableEq, Repr

/-- Association-list lookup of a stored object by path. -/
def lookupObj : List (String × List Nat) → String → Option (List Nat)
  | [], _ => none
  | (q, b) :: rest, p => if q = p then some b else lookupObj rest p

/-- Modelled from the spec: the cache wrapper's Open error taxonomy
(spec §7): NotFound carries a path; Transport is any other tier failure. -/
inductive Err where
  | notFound (path : String)
  | transport (msg : String)
  deriving DecidableEq, Repr

/-- Modelled from the spec: a tier's open(path) — a transport failure if
the tier is failing, the stored bytes on a hit, NotFound for the requested
path otherwise. -/
def Tier.openT (t : Tier) (p : String) : Except Err (List Nat) :=
  match t.failOpen with
  | some m => .error (.transport m)
  | none =>
    match lookupObj t.objects p with
    | some b => .ok b
    | none => .error (.notFound p)

/-- Modelled from the spec: a backfill write of bytes b at path p into a
tier (spec §4.2.4-5). A failing tier is left unchanged (the failure is
non-fatal and must not affect anything else); otherwise the tier now
stores b at p. -/
def Tier.put (t : Tier) (p : String) (b : List Nat) : Tier :=
  if t.failWrite then t else { t with objects := (p, b) :: t.objects }

/-- Modelled from the spec: the outcome of probing the chain in order
(spec §4.2.1-3, §4.2.7): a hit with the bytes, the number of tiers
consulted, and the chain after backfilling every earlier tier; an abort
with the first non-NotFound tier error, unchanged; or NotFound at every
tier. -/
inductive OpenOutcome where
  | hit (bytes : List Nat) (probed : Nat) (chain : List Tier)
  | abortE (e : Err) (probed : Nat)
  | allNotFound
  deriving DecidableEq, Repr

/-- Modelled from the spec: probe the tiers of the chain strictly in
order (spec §4.2.1-3). First success wins and every earlier tier receives
a backfill copy on the way out (spec §4.2.4); only NotFound means
continue to the next tier; any other tier error aborts the whole lookup
(spec §4.2.7). -/
def cacheOpenGo (p : String) : List Tier → OpenOutcome
  | [] => .allNotFound
  | t :: rest =>
    match Tier.openT t p with
    | .ok b => .hit b 1 (t :: rest)
    | .error (.transport m) => .abortE (.transport m) 1
    | .error (.notFound _) =>
      match cacheOpenGo p rest with
      | .hit b k chain => .hit b (k + 1) (Tier.put t p b :: chain)
      | .abortE e k => .abortE e (k + 1)
      | .allNotFound => .allNotFound

/-- Modelled from the spec: the cache wrapper's Open (spec §4.2). Returns
the result delivered to the caller, the chain as left after any
backfill, and the number of tiers consulted (tiers are consulted in chain
order, so consulting k tiers means exactly tiers 0..k-1 were probed). If
no tier contains the object the error is NotFound for the originally
requested path (spec §4.2.6). -/
def Cache.Open (chain : List Tier) (p : String) :
    Except Err (List Nat) × List Tier × Nat :=
  match cacheOpenGo p chain with
  | .hit b k chain2 => (.ok b, chain2, k)
  | .abortE e k => (.error e, chain, k)
  | .allNotFound => (.error (.notFound p), chain, chain.length)

/-! ## Backend drivers, embedded from cloudstorage.go and s3.go

A bucket's read behaviour (b.NewReader / GetObjectWithContext) is modelled
as a function from path to either the stored object or the SDK error the
call yielded; a successful reader reports the object's byte length as its
Size. Handle acquisition (blobBucketHandle / bucketHandles / s3Client) is
modelled by an Except argument: the error the acquisition step would
return, or the bucket behaviour on success. -/

/-- CloudStorage.Open (cloudstorage.go): acquire the blob bucket handle
(any failure is returned to the caller unchanged); read the path; an
error classified by blob.IsNotExist becomes notExistError for the
requested path, any other reader error is returned unchanged; on success
the File carries the requested path as Name, the reader's size and
modtime. -/
def CloudStorage.Open (handle : Except GoErr (String → Except GoErr Obj))
    (path : String) : Except StorageErr File :=
  match handle with
  | .error e => .error (.goErr e)
  | .ok bucket =>
    match bucket path with
    | .error e =>
      if e.notExist then .error (.notExistError path)
      else .error (.goErr e)
    | .ok o =>
      .ok { content := o.content, name := path, size := o.content.length,
            modTime := o.modTime }

/-- S3.Open (s3.go, current revision): acquire the bucket handles (a
failure is returned as is); read the path; a blob.IsNotExist error
becomes notExistError for the requested path, any other reader error is
wrapped by fmt.Errorf("s3: unable to fetch object: %v", err); on success
the File carries the requested path as Name and the reader's size — no
ModTime field is set (the underlying reader cannot supply it, see the
XXX comment in the source), so it is the zero time. -/
def S3.Open (handles : Except StorageErr (String → Except GoErr Obj))
    (path : String) : Except StorageErr File :=
  match handles with
  | .error e => .error e
  | .ok bucket =>
    match bucket path with
    | .error e =>
      if e.notExist then .error (.notExistError path)
      else .error (.errorf "s3: unable to fetch object" e)
    | .ok o =>
      .ok { content := o.content, name := path, size := o.content.length,
            modTime := 0 }

/-- S3.Open (s3.go, legacy revision): acquire the s3 client (a failure is
returned as is); GetObjectWithContext on the path; an awserr whose Code
is s3.ErrCodeNoSuchKey ("NoSuchKey") becomes notExistError for the
requested path, any other error is wrapped by fmt.Errorf("s3: unable to
fetch object: %v", err); on success the File carries the requested path
as Name, the object's ContentLength and LastModified. -/
def S3Legacy.Open (client : Except StorageErr (String → Except GoErr Obj))
    (path : String) : Except StorageErr File :=
  match client with
  | .error e => .error e
  | .ok getObject =>
    match getObject path with
    | .error e =>
      if e.awsCode = some "NoSuchKey" then .error (.notExistError path)
      else .error (.errorf "s3: unable to fetch object" e)
    | .ok o =>
      .ok { content := o.content, name := path, size := o.content.length,
            modTime := o.modTime }

/-- A bucket's write and delete behaviour, for the Create/Delete
embeddings: `write p` is the outcome of b.NewWriter at p (a writer,
identified abstractly by a number, or the SDK error), `del p` the outcome
of b.Delete at p (none on success). -/
structure BlobBucket where
  write : String → Except GoErr Nat
  del : String → Option GoErr
  deriving Inhabited

/-- S3.Create (s3.go, current revision): acquire the bucket handles (a
failure is returned as is), then return b.NewWriter(ctx, path, nil)
directly — its writer or its error, unchanged. -/
def S3.Create (handles : Except StorageErr BlobBucket) (path : String) :
    Except StorageErr Nat :=
  match handles with
  | .error e => .error e
  | .ok b =>
    match b.write path with
    | .ok w => .ok w
    | .error e => .error (.goErr e)

/-- S3.Delete (s3.go, current revision): acquire the bucket handles (a
failure is returned as is), then return b.Delete(ctx, path) unchanged
(none on success). -/
def S3.Delete (handles : Except StorageErr BlobBucket) (path : String) :
    Option StorageErr :=
  match handles with
  | .error e => some e
  | .ok b =>
    match b.del path with
    | none => none
    | some e => some (.goErr e)

/-- CloudStorage.Create (cloudstorage.go): acquire the blob bucket handle
(a failure is returned unchanged), then return b.NewWriter(ctx, path,
nil) directly. -/
def CloudStorage.Create (handle : Except GoErr BlobBucket) (path : String) :
    Except StorageErr Nat :=
  match handle with
  | .error e => .error (.goErr e)
  | .ok b =>
    match b.write path with
    | .ok w => .ok w
    | .error e => .error (.goErr e)

/-- CloudStorage.Delete (cloudstorage.go): acquire the blob bucket handle
(a failure is returned unchanged), then return b.Delete(ctx, path)
unchanged. -/
def CloudStorage.Delete (handle : Except GoErr BlobBucket) (path : String) :
    Option StorageErr :=
  match handle with
  | .error e => some (.goErr e)
  | .ok b =>
    match b.del path with
    | none => none
    | some e => some (.goErr e)

/-- S3.Create (s3.go, legacy revision): unconditionally returns the error
fmt.Errorf("Create not implemented for S3"); no writer. -/
def S3Legacy.Create (path : String) : Except StorageErr Nat :=
  .error (.errMsg "Create not implemented for S3")

/-- S3.Delete (s3.go, legacy revision): unconditionally returns the error
fmt.Errorf("Delete not implemented for S3"). -/
def S3Legacy.Delete (path : String) : Option StorageErr :=
  some (.errMsg "Delete not implemented for S3")

/-- S3.Walk (s3.go, legacy revision): unconditionally returns the error
fmt.Errorf("Walk not implemented for S3"); the visit callback is never
invoked. -/
def S3Legacy.Walk (path : String) : Option StorageErr :=
  some (.errMsg "Walk not implemented for S3")

/-! ## Walk embeddings

A walk is embedded over the listing the backend serves for the queried
path: for CloudStorage, the stream of iterator results (object names, or
an iterator error ending the stream); for S3, the successive pages of
ListObjectsPagesWithContext, each a list of object keys. The visit
callback is a WalkFn returning an error or nil. Each embedding returns
both the list of entries on which the callback was invoked, in order, and
the error Walk returns (none on success). -/

/-- CloudStorage.Walk (cloudstorage.go): loop over it.Next(); an iterator
error is returned to the caller as is; otherwise fn is called on the
object's Name and a non-nil callback error is returned immediately, so
no later entry is visited. -/
def CloudStorage.Walk (fn : String → Option StorageErr) :
    List (Except GoErr String) → List String × Option StorageErr
  | [] => ([], none)
  | .error e :: _ => ([], some (.goErr e))
  | .ok o :: rest =>
    match fn o with
    | some e => ([o], some e)
    | none =>
      let r := CloudStorage.Walk fn rest
      (o :: r.1, r.2)

/-- The page callback's inner loop in S3.Walk (s3.go, current revision):
fn is called on each key of page.Contents in order; at the first non-nil
callback error the loop stops (the error is sent on errCh and the page
callback returns false). Returns the keys visited and that first error. -/
def pageVisit (fn : String → Option StorageErr) :
    List String → List String × Option StorageErr
  | [] => ([], none)
  | k :: rest =>
    match fn k with
    | some e => ([k], some e)
    | none =>
      let r := pageVisit fn rest
      (k :: r.1, r.2)

/-- S3.Walk (s3.go, current revision) over a successful listing, given as
its pages. The paginator calls the page callback with the page and a
`last` flag, and fetches the next page only when the callback returned
true and the page was not the last. The source's callback returns false
after a visit error (having sent the error on errCh), and otherwise
returns the value of `last` itself; Walk then returns the error received
from errCh, or nil when the channel is empty. -/
def S3.Walk (fn : String → Option StorageErr) :
    List (List String) → List String × Option StorageErr
  | [] => ([], none)
  | page :: rest =>
    let r := pageVisit fn page
    match r.2 with
    | some e => (r.1, some e)
    | none =>
      let last := rest.isEmpty
      let cont := last
      if cont && !last then
        let r2 := S3.Walk fn rest
        (r.1 ++ r2.1, r2.2)
      else (r.1, none)

/-! ## Context propagation in the S3 client setup

For the cancellation claim what matters is which context value each
backend call receives: the caller's ctx argument, or a detached
context.Background(). `regionDiscoveryCtx`-style functions record, for a
given session region configuration, whether the bucket-region discovery
call (s3manager.GetBucketRegion) is made and with which context. -/

/-- A Go context value as distinguished by the embedding: the ctx
argument the caller passed in, or a fresh context.Background(). -/
inductive Ctx where
  | caller
  | background
  deriving DecidableEq, Repr

/-- S3.bucketHandles (s3.go, current revision): when the session config
carries no region (length 0), s3manager.GetBucketRegion is called with
the caller's ctx; otherwise no region-discovery call is made. -/
def S3.bucketHandlesRegionCtx (sessionRegion : String) : Option Ctx :=
  if sessionRegion.length = 0 then some Ctx.caller else none

/-- S3.s3Client (s3.go, legacy revision): when the session config carries
no region (length 0), s3manager.GetBucketRegion is called with
context.Background(); otherwise no region-discovery call is made. -/
def S3Legacy.s3ClientRegionCtx (sessionRegion : String) : Option Ctx :=
  if sessionRegion.length = 0 then some Ctx.background else none

/-! ## Lemmas about the cache wrapper model -/

/-- A tier's open only ever reports NotFound for the very path it was
asked for. -/
theorem Tier.openT_notFound_path (t : Tier) (p q : String)
    (h : Tier.openT t p = .error (.notFound q)) : q = p := by
  unfold Tier.openT at h
  cases hf : t.failOpen with
  | some m => simp [hf] at h
  | none =>
    cases hl : lookupObj t.objects p with
    | some b => simp [hf, hl] at h
    | none => simp [hf, hl] at h; exact h.symm

/-- Probing a chain whose first tiers all report NotFound and whose next
tier holds bytes b yields a hit: the bytes, one probe per tier up to and
including the hit, and a backfill write into every earlier tier. -/
theorem cacheOpenGo_hit (p : String) (b : List Nat)
    (pre : List Tier) (thit : Tier) (post : List Tier)
    (hpre : ∀ t ∈ pre, Tier.openT t p = .error (.notFound p))
    (hhit : Tier.openT thit p = .ok b) :
    cacheOpenGo p (pre ++ thit :: post) =
      .hit b (pre.length + 1)
        (pre.map (fun t => Tier.put t p b) ++ thit :: post) := by
  induction pre with
  | nil => simp [cacheOpenGo, hhit]
  | cons t ts ih =>
    have ht : Tier.openT t p = .error (.notFound p) := hpre t (by simp)
    have hts : ∀ u ∈ ts, Tier.openT u p = .error (.notFound p) :=
      fun u hu => hpre u (by simp [hu])
    simp [cacheOpenGo, ht, ih hts]

/-- Probing a chain whose first tiers all report NotFound and whose next
tier fails with a transport error aborts with that error, having probed
one tier per NotFound plus the failing one. -/
theorem cacheOpenGo_abort (p m : String)
    (pre : List Tier) (tbad : Tier) (post : List Tier)
    (hpre : ∀ t ∈ pre, Tier.openT t p = .error (.notFound p))
    (hbad : Tier.openT tbad p = .error (.transport m)) :
    cacheOpenGo p (pre ++ tbad :: post) =
      .abortE (.transport m) (pre.length + 1) := by
  induction pre with
  | nil => simp [cacheOpenGo, hbad]
  | cons t ts ih =>
    have ht : Tier.openT t p = .error (.notFound p) := hpre t (by simp)
    have hts : ∀ u ∈ ts, Tier.openT u p = .error (.notFound p) :=
      fun u hu => hpre u (by simp [hu])
    simp [cacheOpenGo, ht, ih hts]

/-- The probe comes back allNotFound exactly when every tier reports
NotFound for the requested path. -/
theorem cacheOpenGo_allNF (p : String) : ∀ chain : List Tier,
    cacheOpenGo p chain = .allNotFound ↔
      ∀ t ∈ chain, Tier.openT t p = .error (.notFound p) := by
  intro chain
  induction chain with
  | nil => simp [cacheOpenGo]
  | cons t rest ih =>
    constructor
    · intro h
      cases ho : Tier.openT t p with
      | ok b => simp [cacheOpenGo, ho] at h
      | error e =>
        cases e with
        | transport m => simp [cacheOpenGo, ho] at h
        | notFound q =>
          have hq : q = p := Tier.openT_notFound_path t p q ho
          cases hrec : cacheOpenGo p rest with
          | hit b k chain2 => simp [cacheOpenGo, ho, hrec] at h
          | abortE e2 k2 => simp [cacheOpenGo, ho, hrec] at h
          | allNotFound =>
            intro u hu
            rcases List.mem_cons.mp hu with hu | hu
            · subst hu; rw [ho, hq]
            · exact ih.mp hrec u hu
    · intro h
      have ht : Tier.openT t p = .error (.notFound p) := h t (by simp)
      have hrest : cacheOpenGo p rest = .allNotFound :=
        ih.mpr (fun u hu => h u (by simp [hu]))
      simp [cacheOpenGo, ht, hrest]

/-- An aborting probe always carries a transport error, never a
NotFound. -/
theorem cacheOpenGo_abort_transport (p : String) : ∀ (chain : List Tier)
    (e : Err) (k : Nat), cacheOpenGo p chain = .abortE e k →
      ∃ m, e = .transport m := by
  intro chain
  induction chain with
  | nil => intro e k h; simp [cacheOpenGo] at h
  | cons t rest ih =>
    intro e k h
    cases ho : Tier.openT t p with
    | ok b => simp [cacheOpenGo, ho] at h
    | error e2 =>
      cases e2 with
      | transport m =>
        simp [cacheOpenGo, ho] at h
        exact ⟨m, h.1.symm⟩
      | notFound q =>
        simp only [cacheOpenGo, ho] at h
        cases hrec : cacheOpenGo p rest with
        | hit b k2 chain2 => rw [hrec] at h; simp at h
        | abortE e2 k2 =>
          rw [hrec] at h
          simp at h
          rcases ih e2 k2 hrec with ⟨m, hm⟩
          exact ⟨m, h.1 ▸ hm⟩
        | allNotFound => rw [hrec] at h; simp at h

deriving instance DecidableEq for Except

/-! ## Example tiers for concrete instantiations -/

/-- An empty, healthy tier. -/
def tierEmpty : Tier := { objects := [], failOpen := none, failWrite := false }

/-- A tier whose open fails with a transport error "boom". -/
def tierBoom : Tier :=
  { objects := [], failOpen := some "boom", failWrite := false }

/-- A healthy tier holding bytes [1, 2, 3] at "file.json". -/
def tierA : Tier :=
  { objects := [("file.json", [1, 2, 3])], failOpen := none,
    failWrite := false }

/-- An empty read-only tier: healthy opens, failing writes. -/
def tierRO : Tier := { objects := [], failOpen := none, failWrite := true }

/-- C1: the cache wrapper's Open returns NotFound iff every tier in the
chain reported NotFound for the path; any NotFound it returns carries
the originally requested path; and if the tiers before some tier all
reported NotFound and that tier fails with a transport error, Open
returns that underlying error unchanged. -/
theorem c1_cache_open_error_policy (chain : List Tier) (p : String) :
    ((Cache.Open chain p).1 = .error (.notFound p) ↔
      ∀ t ∈ chain, Tier.openT t p = .error (.notFound p)) ∧
    (∀ q, (Cache.Open chain p).1 = .error (.notFound q) → q = p) ∧
    (∀ pre tbad post m, chain = pre ++ tbad :: post →
      (∀ t ∈ pre, Tier.openT t p = .error (.notFound p)) →
      Tier.openT tbad p = .error (.transport m) →
      (Cache.Open chain p).1 = .error (.transport m)) := by
  refine ⟨⟨?_, ?_⟩, ?_, ?_⟩
  · intro h
    cases hrec : cacheOpenGo p chain with
    | hit b k c2 => simp [Cache.Open, hrec] at h
    | abortE e k =>
      rcases cacheOpenGo_abort_transport p chain e k hrec with ⟨m, hm⟩
      subst hm
      simp [Cache.Open, hrec] at h
    | allNotFound => exact (cacheOpenGo_allNF p chain).mp hrec
  · intro h
    have hrec : cacheOpenGo p chain = .allNotFound :=
      (cacheOpenGo_allNF p chain).mpr h
    simp [Cache.Open, hrec]
  · intro q h
    cases hrec : cacheOpenGo p chain with
    | hit b k c2 => simp [Cache.Open, hrec] at h
    | abortE e k =>
      rcases cacheOpenGo_abort_transport p chain e k hrec with ⟨m, hm⟩
      subst hm
      simp [Cache.Open, hrec] at h
    | allNotFound =>
      simp [Cache.Open, hrec] at h
      exact h.symm
  · intro pre tbad post m hchain hpre hbad
    subst hchain
    simp [Cache.Open, cacheOpenGo_abort p m pre tbad post hpre hbad]

/-- Witness for C1 at a concrete chain: tier 0 empty, tier 1 failing
with transport error "boom" — Open returns the transport error
unchanged. -/
theorem c1_cache_open_error_policy_witness :
    (Cache.Open [tierEmpty, tierBoom] "file.json").1 =
      .error (.transport "boom") :=
  (c1_cache_open_error_policy [tierEmpty, tierBoom] "file.json").2.2
    [tierEmpty] tierBoom [] "boom" rfl (by decide) (by decide)

/-- C2: for a path held only by the tier after the first pre.length
tiers (all healthy misses, pre nonempty), Open returns exactly those
bytes, probes exactly the tiers up to and including the hit in chain
order, backfills every earlier tier with a full copy, and a subsequent
Open on the resulting chain returns the same bytes probing only
tier 0. -/
theorem c2_cache_fallback_and_populate (pre : List Tier) (thit : Tier)
    (post : List Tier) (p : String) (b : List Nat)
    (hlen : 0 < pre.length)
    (hpre : ∀ t ∈ pre, t.failOpen = none ∧ lookupObj t.objects p = none ∧
      t.failWrite = false)
    (hhit : thit.failOpen = none) (hb : lookupObj thit.objects p = some b) :
    Cache.Open (pre ++ thit :: post) p =
      (.ok b, pre.map (fun t => Tier.put t p b) ++ thit :: post,
        pre.length + 1) ∧
    (∀ t ∈ pre, lookupObj (Tier.put t p b).objects p = some b) ∧
    (Cache.Open (pre.map (fun t => Tier.put t p b) ++ thit :: post) p).1 =
      .ok b ∧
    (Cache.Open (pre.map (fun t => Tier.put t p b) ++ thit :: post) p).2.2 =
      1 := by
  have hpre2 : ∀ t ∈ pre, Tier.openT t p = .error (.notFound p) := by
    intro t ht
    rcases hpre t ht with ⟨h1, h2, _⟩
    simp [Tier.openT, h1, h2]
  have hhit2 : Tier.openT thit p = .ok b := by
    simp [Tier.openT, hhit, hb]
  have hgo := cacheOpenGo_hit p b pre thit post hpre2 hhit2
  refine ⟨by simp [Cache.Open, hgo], ?_, ?_⟩
  · intro t ht
    rcases hpre t ht with ⟨_, _, h3⟩
    simp [Tier.put, h3, lookupObj]
  · cases pre with
    | nil => exact absurd hlen (by simp)
    | cons t0 ts =>
      rcases hpre t0 (by simp) with ⟨h1, _, h3⟩
      have hopen0 : Tier.openT (Tier.put t0 p b) p = .ok b := by
        simp [Tier.put, h3, Tier.openT, h1, lookupObj]
      exact ⟨by simp [Cache.Open, cacheOpenGo, hopen0],
        by simp [Cache.Open, cacheOpenGo, hopen0]⟩

/-- Witness for C2 at a concrete chain: "file.json" present only at
tier 1; the first Open returns its bytes and the second Open, on the
chain the first one left, probes a single tier. -/
theorem c2_cache_fallback_and_populate_witness :
    (Cache.Open [tierEmpty, tierA] "file.json").1 = .ok [1, 2, 3] ∧
    (Cache.Open (Cache.Open [tierEmpty, tierA] "file.json").2.1
      "file.json").2.2 = 1 := by
  have h := c2_cache_fallback_and_populate [tierEmpty] tierA [] "file.json"
    [1, 2, 3] (by decide) (by decide) (by decide) (by decide)
  simp only [List.cons_append, List.nil_append, List.map_cons,
    List.map_nil] at h
  refine ⟨by rw [h.1], ?_⟩
  rw [h.1]
  exact h.2.2.2

/-- C3: when the object is found past tiers that may refuse backfill
writes, Open still returns the object's bytes (a backfill failure is
never the result of Open), the chain is updated by an independent
backfill write per earlier tier, and every earlier tier whose writes
work ends up holding a full copy. -/
theorem c3_cache_backfill_failure_nonfatal (pre : List Tier) (thit : Tier)
    (post : List Tier) (p : String) (b : List Nat)
    (hpre : ∀ t ∈ pre, t.failOpen = none ∧ lookupObj t.objects p = none)
    (hhit : thit.failOpen = none) (hb : lookupObj thit.objects p = some b) :
    (Cache.Open (pre ++ thit :: post) p).1 = .ok b ∧
    (Cache.Open (pre ++ thit :: post) p).2.1 =
      pre.map (fun t => Tier.put t p b) ++ thit :: post ∧
    (∀ t ∈ pre, t.failWrite = false →
      lookupObj (Tier.put t p b).objects p = some b) := by
  have hpre2 : ∀ t ∈ pre, Tier.openT t p = .error (.notFound p) := by
    intro t ht
    rcases hpre t ht with ⟨h1, h2⟩
    simp [Tier.openT, h1, h2]
  have hhit2 : Tier.openT thit p = .ok b := by
    simp [Tier.openT, hhit, hb]
  have hgo := cacheOpenGo_hit p b pre thit post hpre2 hhit2
  refine ⟨by simp [Cache.Open, hgo], by simp [Cache.Open, hgo], ?_⟩
  intro t ht h3
  simp [Tier.put, h3, lookupObj]

/-- Witness for C3 at a concrete chain: tier 0 read-only, tier 1 empty
and healthy, the object at tier 2. Open still returns the bytes, the
read-only tier is unchanged and tier 1 received its copy. -/
theorem c3_cache_backfill_failure_nonfatal_witness :
    (Cache.Open [tierRO, tierEmpty, tierA] "file.json").1 =
      .ok [1, 2, 3] ∧
    (Cache.Open [tierRO, tierEmpty, tierA] "file.json").2.1 =
      [tierRO, Tier.put tierEmpty "file.json" [1, 2, 3], tierA] := by
  have h := c3_cache_backfill_failure_nonfatal [tierRO, tierEmpty] tierA []
    "file.json" [1, 2, 3] (by decide) (by decide) (by decide)
  simp only [List.cons_append, List.nil_append, List.map_cons,
    List.map_nil] at h
  refine ⟨h.1, ?_⟩
  rw [h.2.1]
  decide

/-! ## Example buckets and errors for concrete instantiations -/

/-- An SDK error classified as not-exist (blob.IsNotExist true, awserr
code NoSuchKey). -/
def errNoSuchKey : GoErr :=
  { notExist := true, awsCode := some "NoSuchKey", msg := "no such key" }

/-- An SDK transport failure, not classified as not-exist. -/
def errBoom : GoErr := { notExist := false, awsCode := none, msg := "boom" }

/-- A stored object: bytes [7, 8], modified at time 99. -/
def objX : Obj := { content := [7, 8], modTime := 99 }

/-- A bucket holding objX at "file.json" and nothing else. -/
def bucketWithX : String → Except GoErr Obj := fun q =>
  if q = "file.json" then .ok objX else .error errNoSuchKey

/-- A bucket whose every read reports not-exist. -/
def bucketMissing : String → Except GoErr Obj := fun _ => .error errNoSuchKey

/-- A bucket whose every read fails with a transport error. -/
def bucketBroken : String → Except GoErr Obj := fun _ => .error errBoom

/-- A bucket accepting writes (writer handle 0) and deletes. -/
def bucketRW : BlobBucket := { write := fun _ => .ok 0, del := fun _ => none }

/-- C5: on an underlying not-exist report, every backend's Open returns
a notExistError carrying exactly the requested path: CloudStorage and
the current S3 driver translate a blob.IsNotExist error, the legacy S3
driver an awserr with code NoSuchKey. -/
theorem c5_open_notfound_carries_path
    (bucket : String → Except GoErr Obj) (p : String) (e : GoErr)
    (h : bucket p = .error e) :
    (e.notExist = true →
      CloudStorage.Open (.ok bucket) p = .error (.notExistError p) ∧
      S3.Open (.ok bucket) p = .error (.notExistError p)) ∧
    (e.awsCode = some "NoSuchKey" →
      S3Legacy.Open (.ok bucket) p = .error (.notExistError p)) := by
  refine ⟨fun hne => ⟨?_, ?_⟩, fun hcode => ?_⟩
  · simp [CloudStorage.Open, h, hne]
  · simp [S3.Open, h, hne]
  · simp [S3Legacy.Open, h, hcode]

/-- Witness for C5 at a concrete missing object: all three Opens return
notExistError "file.json". -/
theorem c5_open_notfound_carries_path_witness :
    CloudStorage.Open (.ok bucketMissing) "file.json" =
      .error (.notExistError "file.json") ∧
    S3.Open (.ok bucketMissing) "file.json" =
      .error (.notExistError "file.json") ∧
    S3Legacy.Open (.ok bucketMissing) "file.json" =
      .error (.notExistError "file.json") := by
  have h := c5_open_notfound_carries_path bucketMissing "file.json"
    errNoSuchKey rfl
  exact ⟨(h.1 rfl).1, (h.1 rfl).2, h.2 rfl⟩

/-- C8: every successful Open returns a File named by the requested
path whose Size is the stored object's byte length; CloudStorage and
the legacy S3 driver pass the backend's modtime through, while the
current S3 driver, whose reader cannot supply one, still succeeds and
reports the zero time. -/
theorem c8_open_file_fields (bucket : String → Except GoErr Obj)
    (p : String) (o : Obj) (h : bucket p = .ok o) :
    CloudStorage.Open (.ok bucket) p =
      .ok { content := o.content, name := p, size := o.content.length,
            modTime := o.modTime } ∧
    S3.Open (.ok bucket) p =
      .ok { content := o.content, name := p, size := o.content.length,
            modTime := 0 } ∧
    S3Legacy.Open (.ok bucket) p =
      .ok { content := o.content, name := p, size := o.content.length,
            modTime := o.modTime } := by
  refine ⟨?_, ?_, ?_⟩
  · simp [CloudStorage.Open, h]
  · simp [S3.Open, h]
  · simp [S3Legacy.Open, h]

/-- Witness for C8 at a concrete stored object. -/
theorem c8_open_file_fields_witness :
    CloudStorage.Open (.ok bucketWithX) "file.json" =
      .ok { content := objX.content, name := "file.json",
            size := objX.content.length, modTime := objX.modTime } ∧
    S3.Open (.ok bucketWithX) "file.json" =
      .ok { content := objX.content, name := "file.json",
            size := objX.content.length, modTime := 0 } ∧
    S3Legacy.Open (.ok bucketWithX) "file.json" =
      .ok { content := objX.content, name := "file.json",
            size := objX.content.length, modTime := objX.modTime } :=
  c8_open_file_fields bucketWithX "file.json" objX (by decide)

/-- C10: a CloudStorage.Open reader failure not classified as not-exist
is returned to the caller as the very same error value — not wrapped,
not rewritten, not turned into a notExistError — and no File comes with
it. -/
theorem c10_cloudstorage_open_error_unchanged
    (bucket : String → Except GoErr Obj) (p : String) (e : GoErr)
    (h : bucket p = .error e) (hne : e.notExist = false) :
    CloudStorage.Open (.ok bucket) p = .error (.goErr e) := by
  simp [CloudStorage.Open, h, hne]

/-- Witness for C10 at a concrete transport failure. -/
theorem c10_cloudstorage_open_error_unchanged_witness :
    CloudStorage.Open (.ok bucketBroken) "file.json" =
      .error (.goErr errBoom) :=
  c10_cloudstorage_open_error_unchanged bucketBroken "file.json" errBoom
    rfl rfl

/-- C7 counterexample: at path "file.json" the legacy S3 driver's
Create, Delete and Walk do not operate on the store; each
unconditionally returns its "not implemented" error. -/
theorem c7_legacy_not_implemented_counterexample :
    S3Legacy.Create "file.json" =
      .error (.errMsg "Create not implemented for S3") ∧
    S3Legacy.Delete "file.json" =
      some (.errMsg "Delete not implemented for S3") ∧
    S3Legacy.Walk "file.json" =
      some (.errMsg "Walk not implemented for S3") := ⟨rfl, rfl, rfl⟩

/-- C7 amended: the current S3 driver and CloudStorage implement Create
and Delete by delegating to the bucket — Create returns the bucket's
writer, Delete the bucket's outcome — while the legacy S3 driver's
Create, Delete and Walk return "not implemented" errors for every
path. -/
theorem c7_backend_operations_amended (p : String) (b : BlobBucket)
    (w : Nat) (hw : b.write p = .ok w) (hd : b.del p = none) :
    S3.Create (.ok b) p = .ok w ∧
    S3.Delete (.ok b) p = none ∧
    CloudStorage.Create (.ok b) p = .ok w ∧
    CloudStorage.Delete (.ok b) p = none ∧
    S3Legacy.Create p = .error (.errMsg "Create not implemented for S3") ∧
    S3Legacy.Delete p = some (.errMsg "Delete not implemented for S3") ∧
    S3Legacy.Walk p = some (.errMsg "Walk not implemented for S3") := by
  refine ⟨?_, ?_, ?_, ?_, rfl, rfl, rfl⟩
  · simp [S3.Create, hw]
  · simp [S3.Delete, hd]
  · simp [CloudStorage.Create, hw]
  · simp [CloudStorage.Delete, hd]

/-- Witness for the amended C7 at a concrete read-write bucket. -/
theorem c7_backend_operations_amended_witness :
    S3.Create (.ok bucketRW) "file.json" = .ok 0 ∧
    S3.Delete (.ok bucketRW) "file.json" = none ∧
    CloudStorage.Create (.ok bucketRW) "file.json" = .ok 0 ∧
    CloudStorage.Delete (.ok bucketRW) "file.json" = none ∧
    S3Legacy.Create "file.json" =
      .error (.errMsg "Create not implemented for S3") ∧
    S3Legacy.Delete "file.json" =
      some (.errMsg "Delete not implemented for S3") ∧
    S3Legacy.Walk "file.json" =
      some (.errMsg "Walk not implemented for S3") :=
  c7_backend_operations_amended "file.json" bucketRW 0 rfl rfl

/-- C9: with no region configured in the session, the current S3
driver's bucket-region discovery call receives the caller's context,
but the legacy driver's same call receives a detached
context.Background(), so the caller's cancellation signal does not
reach that in-flight call. -/
theorem c9_legacy_region_discovery_detached_ctx :
    S3.bucketHandlesRegionCtx "" = some Ctx.caller ∧
    S3Legacy.s3ClientRegionCtx "" = some Ctx.background := by decide

/-- C4: the claim fails on the code. For a listing of two pages holding
keys "a" and "b" and a visit callback that never errs, S3.Walk invokes
the callback only on "a" and returns success: the page callback hands
the paginator the value of the `last` flag, which is false on every
non-final page, so pagination stops after the first page and the
second page's object is never visited. -/
theorem c4_s3_walk_drops_later_pages :
    S3.Walk (fun _ => none) [["a"], ["b"]] = (["a"], none) := by decide

/-! ## Lemmas about the Walk embeddings -/

/-- Splitting a singleton at its element leaves nothing after it. -/
theorem singleton_split_tail {α : Type} (k : α) :
    ∀ pre suf : List α, [k] = pre ++ k :: suf → suf = [] := by
  intro pre suf h
  have hlen := congrArg List.length h
  simp only [List.length_cons, List.length_append, List.length_nil] at hlen
  have hz : suf.length = 0 := by omega
  exact List.eq_nil_of_length_eq_zero hz

/-- In CloudStorage.Walk, an entry on which the callback errs is the
last entry visited and its error is the result. -/
theorem cloudWalk_stops (fn : String → Option StorageErr) :
    ∀ (items : List (Except GoErr String)) (k : String) (e : StorageErr),
      k ∈ (CloudStorage.Walk fn items).1 → fn k = some e →
      (CloudStorage.Walk fn items).2 = some e ∧
      ∀ pre suf, (CloudStorage.Walk fn items).1 = pre ++ k :: suf →
        suf = [] := by
  intro items
  induction items with
  | nil => intro k e hk _; simp [CloudStorage.Walk] at hk
  | cons it rest ih =>
    intro k e hk hke
    cases it with
    | error e2 => simp [CloudStorage.Walk] at hk
    | ok o =>
      cases hfo : fn o with
      | some e0 =>
        simp only [CloudStorage.Walk, hfo] at hk ⊢
        have hko : k = o := by simpa using hk
        subst hko
        rw [hke] at hfo
        have he : e0 = e := by simpa using hfo.symm
        subst he
        exact ⟨rfl, singleton_split_tail k⟩
      | none =>
        simp only [CloudStorage.Walk, hfo] at hk ⊢
        rcases List.mem_cons.mp hk with hko | hk2
        · rw [hko] at hke
          rw [hke] at hfo
          simp at hfo
        · rcases ih k e hk2 hke with ⟨hr, hsplit⟩
          refine ⟨hr, ?_⟩
          intro pre suf h
          cases pre with
          | nil =>
            rw [List.nil_append] at h
            injection h with h1 h2
            rw [h1, hke] at hfo
            simp at hfo
          | cons x pre2 =>
            rw [List.cons_append] at h
            injection h with h1 h2
            exact hsplit pre2 suf h2

/-- In a single page's visit loop, an entry on which the callback errs
is the last entry visited and its error is the result. -/
theorem pageVisit_stops (fn : String → Option StorageErr) :
    ∀ (page : List String) (k : String) (e : StorageErr),
      k ∈ (pageVisit fn page).1 → fn k = some e →
      (pageVisit fn page).2 = some e ∧
      ∀ pre suf, (pageVisit fn page).1 = pre ++ k :: suf → suf = [] := by
  intro page
  induction page with
  | nil => intro k e hk _; simp [pageVisit] at hk
  | cons o rest ih =>
    intro k e hk hke
    cases hfo : fn o with
    | some e0 =>
      simp only [pageVisit, hfo] at hk ⊢
      have hko : k = o := by simpa using hk
      subst hko
      rw [hke] at hfo
      have he : e0 = e := by simpa using hfo.symm
      subst he
      exact ⟨rfl, singleton_split_tail k⟩
    | none =>
      simp only [pageVisit, hfo] at hk ⊢
      rcases List.mem_cons.mp hk with hko | hk2
      · rw [hko] at hke
        rw [hke] at hfo
        simp at hfo
      · rcases ih k e hk2 hke with ⟨hr, hsplit⟩
        refine ⟨hr, ?_⟩
        intro pre suf h
        cases pre with
        | nil =>
          rw [List.nil_append] at h
          injection h with h1 h2
          rw [h1, hke] at hfo
          simp at hfo
        | cons x pre2 =>
          rw [List.cons_append] at h
          injection h with h1 h2
          exact hsplit pre2 suf h2

/-- S3.Walk on a nonempty listing behaves as the visit of its first
page: the page callback returns the `last` flag itself, so the
paginator never fetches a further page, and the error channel holds
exactly the page's first callback error. -/
theorem s3Walk_cons (fn : String → Option StorageErr)
    (page : List String) (rest : List (List String)) :
    S3.Walk fn (page :: rest) = pageVisit fn page := by
  have hc : (rest.isEmpty && !rest.isEmpty) = false := by
    cases h : rest.isEmpty <;> rfl
  cases hv : (pageVisit fn page).2 with
  | some e =>
    simp only [S3.Walk, hv]
    rw [← hv]
  | none =>
    simp only [S3.Walk, hv, hc, Bool.false_eq_true, if_false]
    rw [← hv]

/-- C6: for both Walk implementations, on any listing, if the visit
callback returns an error on an entry it was invoked on, that entry is
the last one visited — the callback is never invoked on any later
entry — and that very error is what Walk returns. -/
theorem c6_walk_callback_abort (fn : String → Option StorageErr)
    (items : List (Except GoErr String)) (pages : List (List String))
    (k : String) (e : StorageErr) (hke : fn k = some e) :
    (k ∈ (CloudStorage.Walk fn items).1 →
      (CloudStorage.Walk fn items).2 = some e ∧
      ∀ pre suf, (CloudStorage.Walk fn items).1 = pre ++ k :: suf →
        suf = []) ∧
    (k ∈ (S3.Walk fn pages).1 →
      (S3.Walk fn pages).2 = some e ∧
      ∀ pre suf, (S3.Walk fn pages).1 = pre ++ k :: suf → suf = []) := by
  refine ⟨fun hk => cloudWalk_stops fn items k e hk hke, fun hk => ?_⟩
  cases pages with
  | nil => simp [S3.Walk] at hk
  | cons page rest =>
    rw [s3Walk_cons] at hk ⊢
    exact pageVisit_stops fn page k e hk hke

/-- The visit callback used by the C6 witness: errs on "b". -/
def walkFnEx : String → Option StorageErr := fun s =>
  if s = "b" then some (.errMsg "cb") else none

/-- Witness for C6 at a concrete listing: both walks return the
callback's error for "b". -/
theorem c6_walk_callback_abort_witness :
    (CloudStorage.Walk walkFnEx [.ok "a", .ok "b", .ok "c"]).2 =
      some (.errMsg "cb") ∧
    (S3.Walk walkFnEx [["a", "b", "c"]]).2 = some (.errMsg "cb") := by
  have h := c6_walk_callback_abort walkFnEx [.ok "a", .ok "b", .ok "c"]
    [["a", "b", "c"]] "b" (.errMsg "cb") (by decide)
  exact ⟨(h.1 (by decide)).1, (h.2 (by decide)).1⟩
